import Mathlib

/-!
Shallow embedding of the statistical core of `book_utils.py` from the
japanese-ebook-analysis repository, together with proofs about the
histogram bucketizer (`gethistogram`, `getbins`, `generatebins`,
`getmaximumfreq`), the frequency analyzer (the pure core of
`analyse_ebook`), and the extension dispatch of `process_file`.

Conventions of the embedding:
* Python integers are `Int` (they are unbounded, like `Int`).
* Python dictionaries with string keys are association lists
  `List (String × _)`; lookup takes the first matching key, and keys are
  unique in every dictionary the program builds.
* Python list indexing `l[i]` (which accepts negative indices counting
  from the end and raises `IndexError` out of range) is `pyIndex`,
  returning `none` exactly when Python raises.
* A Python function that can raise is modelled with an `Option` result,
  `none` meaning an exception escaped.
* `sorted(xs, key=lambda t: t[1], reverse=True)` is a stable descending
  sort on the second component; it is embedded as `List.insertionSort`
  with the relation `byUses` (insertion sort is exactly the stable sort,
  which Python's `sorted` is documented to be).
* `set(xs)` has an iteration order that CPython derives from string
  hashes (randomized per process); the embedding therefore takes the
  enumeration order of each set as an explicit list argument constrained
  by `isEnumOf`.
-/

namespace BookUtils

/-- Entry of one external frequency list for one word: the objects stored
in the `frequency` dictionaries, with fields `.frequency` and `.stars` as
accessed by `gethistogram`, `getbins` and `getmaximumfreq`. -/
structure FrequencyEntry where
  frequency : Int
  stars : Int
deriving DecidableEq

/-- One element of the `word_list` built in `analyse_ebook`:
`{"word": ..., "ocurrences": ..., "frequency": ...}` (the misspelling
`ocurrences` is the source's own key). -/
structure WordStat where
  word : String
  ocurrences : Nat
  frequency : List (String × FrequencyEntry)
deriving DecidableEq

/-- One element of the `char_list` built in `analyse_ebook`:
`{"character": ..., "occurences": ...}` (source's own key spelling). -/
structure CharStat where
  character : Char
  occurences : Nat
deriving DecidableEq

/-- The statistical fields of the `book_data` dictionary assembled by
`analyse_ebook` (the book-identity fields `title`, `authors`, `image`,
`file_hash` are copied from the externally produced `Book` record and
carry no computation, so they are omitted from the embedding). -/
structure AnalysisResult where
  n_words : Nat
  n_words_unique : Nat
  n_words_used_once : Nat
  n_chars : Nat
  n_chars_unique : Nat
  n_chars_used_once : Nat
  words : List WordStat
  chars : List CharStat
deriving DecidableEq

/-- Python dictionary lookup `d[k]` / `k in d.keys()` on an association
list: the value at the first matching key, if any. -/
def dictGet (d : List (String × FrequencyEntry)) (k : String) : Option FrequencyEntry :=
  (d.find? (fun p => p.1 == k)).map (fun p => p.2)

/-- Python list indexing `l[i]`: negative indices count from the end;
`none` models `IndexError`. -/
def pyIndex {α : Type} (l : List α) (i : Int) : Option α :=
  let j : Int := if i < 0 then (l.length : Int) + i else i
  if 0 ≤ j then l.get? j.toNat else none

/-- Python `s.split(sep)` for a single-character separator, over the
character list of the string. -/
def pySplit (sep : Char) : List Char → List (List Char)
  | [] => [[]]
  | c :: rest =>
    let r := pySplit sep rest
    if c = sep then [] :: r
    else
      match r with
      | [] => [[c]]
      | s :: ss => (c :: s) :: ss

/-- Numeric value of a decimal digit character. -/
def digitVal (c : Char) : Nat := c.toNat - '0'.toNat

/-- Decimal value of a digit string. -/
def natOfDigits (cs : List Char) : Nat := cs.foldl (fun a c => 10 * a + digitVal c) 0

/-- Python `int(s)` on the strings this program feeds it (an optional
minus sign followed by decimal digits). On anything unparseable Python
raises `ValueError`; that case never arises on the program's own bin
strings, and the embedding returns 0 there. -/
def pyIntChars (cs : List Char) : Int :=
  match cs with
  | '-' :: rest => if rest ≠ [] ∧ rest.all Char.isDigit then -(natOfDigits rest : Int) else 0
  | _ => if cs ≠ [] ∧ cs.all Char.isDigit then (natOfDigits cs : Int) else 0

/-- Source `getmaximumfreq(word_list)`: the running maximum, started at 0,
of `i['frequency']['netflix'].frequency` over the words that have a
`'netflix'` entry. -/
def getmaximumfreq (word_list : List WordStat) : Int :=
  word_list.foldl
    (fun maximum_num i =>
      match dictGet i.frequency "netflix" with
      | some e => max maximum_num e.frequency
      | none => maximum_num)
    0

/-- The `while(b<=maximum_num)` loop of `generatebins`: appends
`str(a)+"-"+str(b)` and steps `a=b; b=b+500`. -/
def generatebinsLoop (maximum_num a b : Int) : List String :=
  if b ≤ maximum_num then
    (toString a ++ "-" ++ toString b) :: generatebinsLoop maximum_num b (b + 500)
  else []
termination_by (maximum_num + 500 - b).toNat
decreasing_by
  simp_wf
  omega

/-- Source `generatebins(maximum_num)`: bin label strings
`"0-500", "500-1000", ...` while the upper edge stays `≤ maximum_num`. -/
def generatebins (maximum_num : Int) : List String :=
  generatebinsLoop maximum_num 0 500

/-- The per-bin membership test of `getbins`:
`freq_num >= int(lst[0]) and freq_num < int(lst[1])` where
`lst = bin.split("-")`. -/
def binContains (freq_num : Int) (bin : String) : Bool :=
  let lst := pySplit '-' bin.toList
  decide (pyIntChars (lst.getD 0 []) ≤ freq_num) && decide (freq_num < pyIntChars (lst.getD 1 []))

/-- The indexed `for i in range(len(bins))` loop of `getbins` with its
early `return i`: position of the first matching bin, if any. -/
def getbinsAux (freq_num : Int) : List String → Nat → Option Nat
  | [], _ => none
  | bin :: rest, i => if binContains freq_num bin then some i else getbinsAux freq_num rest (i + 1)

/-- Source `getbins(freq_num, bins)`: index of the first bin whose
half-open range contains `freq_num`, falling through to
`len(bins)-1` (which is `-1` on an empty bin list). -/
def getbins (freq_num : Int) (bins : List String) : Int :=
  match getbinsAux freq_num bins 0 with
  | some i => (i : Int)
  | none => (bins.length : Int) - 1

/-- Source `gethistogram(word_list)`, reduced to its observable data: the
rows `(Range, Stars)` of the dataframe that `px.histogram` counts.
`Stars` is `none` for the seed row's `np.nan`. The function first creates
the seed row `("0-500", nan)`, then one `(bin, 0)` row per generated bin,
then one row per word carrying a `'netflix'` entry, whose `Range` is
`bins[getbins(...)]`; a `none` result models the `IndexError` escaping
when that indexing fails. Chart rendering (`plotly`) is an external
collaborator and is not modelled. `histStep` is the body of the
`for i in word_list` loop acting on the accumulated dataframe rows. -/
def histStep (bins : List String) (df : Option (List (String × Option Int)))
    (i : WordStat) : Option (List (String × Option Int)) :=
  df.bind (fun rows =>
    match dictGet i.frequency "netflix" with
    | some e =>
      (pyIndex bins (getbins e.frequency bins)).map (fun r => rows ++ [(r, some e.stars)])
    | none => some rows)

def gethistogramRows (word_list : List WordStat) : Option (List (String × Option Int)) :=
  let bins := generatebins (getmaximumfreq word_list)
  let df0 : List (String × Option Int) := ("0-500", none) :: bins.map (fun i => (i, some 0))
  word_list.foldl (histStep bins) (some df0)

/-- Whether a word carries a `'netflix'` frequency entry
(`'netflix' in i['frequency'].keys()`). -/
def hasNetflix (i : WordStat) : Bool := (dictGet i.frequency "netflix").isSome

/-- The ordering used by `sorted(..., key=lambda tup: tup[1], reverse=True)`:
`p` may stay before `q` exactly when `p`'s count is at least `q`'s.
Insertion sort with this relation is the stable descending-by-count sort
that Python's `sorted` performs. -/
def byUses {α : Type} (p q : α × Nat) : Prop := q.2 ≤ p.2

instance {α : Type} : DecidableRel (byUses (α := α)) := fun p q => Nat.decLe q.2 p.2

instance {α : Type} : IsTotal (α × Nat) byUses := ⟨fun p q => Nat.le_total q.2 p.2⟩

instance {α : Type} : IsTrans (α × Nat) byUses := ⟨fun _ _ _ h1 h2 => Nat.le_trans h2 h1⟩

/-- Python `xs.count(x)`: the number of elements of `xs` equal to `x`. -/
def pyCount {α : Type} [DecidableEq α] (xs : List α) (x : α) : Nat :=
  xs.countP (fun y => decide (y = x))

/-- The `(x, xs.count x)` pairs built by the two comprehensions
`[(char, chars.count(char)) for char in unique_chars]` and
`[(word, words.count(word)) for word in unique_words]`. -/
def countPairs {α : Type} [DecidableEq α] (xs u : List α) : List (α × Nat) :=
  u.map (fun x => (x, pyCount xs x))

/-- `sorted(countPairs ..., key=lambda tup: tup[1], reverse=True)`. -/
def withUses {α : Type} [DecidableEq α] (xs u : List α) : List (α × Nat) :=
  List.insertionSort byUses (countPairs xs u)

/-- The list `u` enumerates the Python set of the elements of `l`:
it lists each distinct element of `l` exactly once, in some order.
CPython chooses the order from randomized string hashes, so the order is
an oracle of the runtime, not a function of `l`; the embedding takes it
as an explicit argument constrained by this predicate. -/
def isEnumOf {α : Type} [DecidableEq α] (u l : List α) : Prop :=
  u.Nodup ∧ (∀ x ∈ u, x ∈ l) ∧ (∀ x ∈ l, x ∈ u)

instance {α : Type} [DecidableEq α] (u l : List α) : Decidable (isEnumOf u l) :=
  inferInstanceAs (Decidable (u.Nodup ∧ (∀ x ∈ u, x ∈ l) ∧ (∀ x ∈ l, x ∈ u)))

/-- The pure statistical core of `analyse_ebook` (source lines 120-153):
character pass, word pass, stable descending sorts, used-once
comprehensions, and assembly of the `book_data` counts and lists.
`text` is the file content as Unicode codepoints (`list(text)`), `tokens`
is the output of `parse_sentence` (the tokenizer adapter), `unique_chars`
and `unique_words` are the enumeration orders of `set(text)` and
`set(words)`, and `get_frequency` is the frequency-corpus join
(`get_frequency(word, frequency_lists)`), a read-only collaborator passed
as a function. -/
def analyse (text : List Char) (tokens : List String)
    (unique_chars : List Char) (unique_words : List String)
    (get_frequency : String → List (String × FrequencyEntry)) : AnalysisResult :=
  let chars := text
  let chars_with_uses := withUses chars unique_chars
  let chars_used_once := (chars_with_uses.filter (fun p => p.2 == 1)).map (fun p => p.1)
  let words := tokens
  let words_with_uses := withUses words unique_words
  let used_once := (words_with_uses.filter (fun p => p.2 == 1)).map (fun p => p.1)
  let word_list := words_with_uses.map
    (fun p => { word := p.1, ocurrences := p.2, frequency := get_frequency p.1 : WordStat })
  let char_list := chars_with_uses.map
    (fun p => { character := p.1, occurences := p.2 : CharStat })
  { n_words := words.length
    n_words_unique := unique_words.length
    n_words_used_once := used_once.length
    n_chars := chars.length
    n_chars_unique := unique_chars.length
    n_chars_used_once := chars_used_once.length
    words := word_list
    chars := char_list }

/-- Outcome of `process_file`, up to the externally produced `Book`
record: which handler the extension dispatch selects, or the
`ValueError` it raises. The file hashing and directory creation that
precede the dispatch are side-effecting collaborators with no influence
on the dispatch and are not modelled. -/
inductive ProcessOutcome where
  | epub_branch
  | txt_branch
  | value_error (msg : String)
deriving DecidableEq

/-- Python `filename.split('.')[-1]` (the list from `split` is never
empty, so the `[-1]` never raises). -/
def lastExtension (filename : String) : String :=
  ((pySplit '.' filename.toList).map (fun cs => String.mk cs)).getLastD ""

/-- Source `process_file(filename)`: dispatch on the final `'.'`-separated
extension, raising `ValueError` with the allowed extensions otherwise. -/
def process_file (filename : String) : ProcessOutcome :=
  let allowed_extensions := ["epub", "txt"]
  let extension := lastExtension filename
  if extension = "epub" then ProcessOutcome.epub_branch
  else if extension = "txt" then ProcessOutcome.txt_branch
  else ProcessOutcome.value_error
    ("Filename extension must be one of " ++ String.intercalate "," allowed_extensions)

/-- Label of the k-th generated bin, `str(500*k) + "-" + str(500*k+500)`. -/
def binStr (k : Nat) : String :=
  toString ((500 : Int) * k) ++ "-" ++ toString ((500 : Int) * k + 500)

/-- Concrete word record used in witnesses: the word `"猫"` carrying a
`netflix` entry with the given frequency and 4 stars. -/
def catWord (f : Int) : WordStat :=
  { word := "猫", ocurrences := 1, frequency := [("netflix", { frequency := f, stars := 4 })] }

/-- Concrete word record carrying no frequency entries. -/
def dogWord : WordStat :=
  { word := "犬", ocurrences := 2, frequency := [] }

/-- Frequency-corpus join in which no word resolves in any corpus. -/
def noFreq : String → List (String × FrequencyEntry) := fun _ => []

/-- Tokenizer output of the spec's concrete scenario for
`text = "猫が猫を見た。猫。"`. -/
def scenarioTokens : List String := ["猫", "が", "猫", "を", "見た", "。", "猫", "。"]

/-- An enumeration of the distinct words of the scenario tokens. -/
def scenarioUniqueWords : List String := ["猫", "が", "を", "見た", "。"]

/-- The scenario text as a list of codepoints. -/
def scenarioText : List Char := "猫が猫を見た。猫。".toList

/-- An enumeration of the distinct characters of the scenario text. -/
def scenarioUniqueChars : List Char := ['猫', 'が', 'を', '見', 'た', '。']

/-! ### Lemmas about the histogram bucketizer -/

theorem maxfreq_foldl_nonneg :
    ∀ (wl : List WordStat) (acc : Int), 0 ≤ acc →
      0 ≤ wl.foldl
        (fun maximum_num i =>
          match dictGet i.frequency "netflix" with
          | some e => max maximum_num e.frequency
          | none => maximum_num)
        acc
  | [], _, h => h
  | i :: wl, acc, h => by
    rw [List.foldl_cons]
    apply maxfreq_foldl_nonneg wl
    cases dictGet i.frequency "netflix" with
    | none => exact h
    | some e => exact le_trans h (le_max_left _ _)

theorem getmaximumfreq_nonneg (wl : List WordStat) : 0 ≤ getmaximumfreq wl :=
  maxfreq_foldl_nonneg wl 0 le_rfl

theorem maxfreq_foldl_no_entry :
    ∀ (wl : List WordStat) (acc : Int), (∀ i ∈ wl, hasNetflix i = false) →
      wl.foldl
        (fun maximum_num i =>
          match dictGet i.frequency "netflix" with
          | some e => max maximum_num e.frequency
          | none => maximum_num)
        acc = acc
  | [], _, _ => rfl
  | i :: wl, acc, h => by
    rw [List.foldl_cons]
    have hi : hasNetflix i = false := h i (List.mem_cons_self i wl)
    unfold hasNetflix at hi
    cases hd : dictGet i.frequency "netflix" with
    | none =>
      simp only [hd]
      exact maxfreq_foldl_no_entry wl acc (fun j hj => h j (List.mem_cons_of_mem i hj))
    | some e => rw [hd] at hi; simp at hi

theorem getmaximumfreq_no_entry (wl : List WordStat) (h : ∀ i ∈ wl, hasNetflix i = false) :
    getmaximumfreq wl = 0 :=
  maxfreq_foldl_no_entry wl 0 h

theorem generatebinsLoop_eq :
    ∀ (n j : Nat) (m : Int),
      (500 : Int) * ((j : Int) + (n : Int)) ≤ m → m < 500 * ((j : Int) + (n : Int)) + 500 →
      generatebinsLoop m (500 * (j : Int)) (500 * (j : Int) + 500) = (List.range' j n).map binStr
  | 0, j, m, h1, h2 => by
    rw [generatebinsLoop, if_neg (by push_cast at h1 h2 ⊢; omega)]
    simp
  | n + 1, j, m, h1, h2 => by
    rw [generatebinsLoop, if_pos (by push_cast at h1 h2 ⊢; omega)]
    rw [List.range'_succ, List.map_cons]
    have harg : (500 : Int) * (j : Int) + 500 = 500 * ((j + 1 : Nat) : Int) := by push_cast; ring
    rw [harg]
    rw [generatebinsLoop_eq n (j + 1) m (by push_cast at h1 h2 ⊢; omega)
      (by push_cast at h1 h2 ⊢; omega)]
    rfl

theorem generatebins_eq (m : Int) (hm : 0 ≤ m) :
    generatebins m = (List.range (m.toNat / 500)).map binStr := by
  have h1 := Nat.div_add_mod m.toNat 500
  have h2 : m.toNat % 500 < 500 := Nat.mod_lt _ (by norm_num)
  have ht : ((m.toNat : Int)) = m := Int.toNat_of_nonneg hm
  have h := generatebinsLoop_eq (m.toNat / 500) 0 m (by push_cast; omega) (by push_cast; omega)
  rw [List.range_eq_range']
  unfold generatebins
  simpa using h

theorem pyIndex_of_nonneg {α : Type} (l : List α) (k : Int) (h0 : 0 ≤ k) :
    pyIndex l k = l.get? k.toNat := by
  simp [pyIndex, not_lt.2 h0, h0]

theorem getbinsAux_eq_findIdx? (freq_num : Int) :
    ∀ (l : List String) (i : Nat),
      getbinsAux freq_num l i = List.findIdx? (binContains freq_num) l i
  | [], i => by simp [getbinsAux]
  | bin :: rest, i => by
    rw [getbinsAux, List.findIdx?_cons]
    by_cases h : binContains freq_num bin <;>
      simp [h, getbinsAux_eq_findIdx? freq_num rest (i + 1)]

theorem getbinsAux_bounds (freq_num : Int) :
    ∀ (l : List String) (i j : Nat), getbinsAux freq_num l i = some j → i ≤ j ∧ j < i + l.length
  | [], i, j, h => by simp [getbinsAux] at h
  | bin :: rest, i, j, h => by
    rw [getbinsAux] at h
    by_cases hc : binContains freq_num bin
    · rw [if_pos hc] at h
      cases h
      simp
    · rw [if_neg hc] at h
      have := getbinsAux_bounds freq_num rest (i + 1) j h
      simp only [List.length_cons]
      omega

theorem getbinsAux_none (freq_num : Int) :
    ∀ (l : List String) (i : Nat), (∀ bin ∈ l, binContains freq_num bin = false) →
      getbinsAux freq_num l i = none
  | [], _, _ => rfl
  | bin :: rest, i, h => by
    rw [getbinsAux, if_neg (by simp [h bin (List.mem_cons_self bin rest)])]
    exact getbinsAux_none freq_num rest (i + 1)
      (fun b hb => h b (List.mem_cons_of_mem bin hb))

theorem histStep_none (bins : List String) (i : WordStat) : histStep bins none i = none := rfl

theorem histFoldl_none (bins : List String) :
    ∀ (wl : List WordStat), wl.foldl (histStep bins) none = none
  | [] => rfl
  | i :: wl => by
    rw [List.foldl_cons, histStep_none]
    exact histFoldl_none bins wl

theorem histFoldl_length (bins : List String) :
    ∀ (wl : List WordStat) (rows0 rows : List (String × Option Int)),
      wl.foldl (histStep bins) (some rows0) = some rows →
      rows.length = rows0.length + wl.countP hasNetflix
  | [], rows0, rows, h => by
    cases h
    simp
  | i :: wl, rows0, rows, h => by
    rw [List.foldl_cons] at h
    rw [List.countP_cons]
    cases hd : dictGet i.frequency "netflix" with
    | none =>
      rw [show histStep bins (some rows0) i = some rows0 by simp [histStep, hd]] at h
      have := histFoldl_length bins wl rows0 rows h
      simp [hasNetflix, hd]
      omega
    | some e =>
      cases hp : pyIndex bins (getbins e.frequency bins) with
      | none =>
        rw [show histStep bins (some rows0) i = none by simp [histStep, hd, hp]] at h
        rw [histFoldl_none bins wl] at h
        cases h
      | some r =>
        rw [show histStep bins (some rows0) i = some (rows0 ++ [(r, some e.stars)]) by
          simp [histStep, hd, hp]] at h
        have := histFoldl_length bins wl (rows0 ++ [(r, some e.stars)]) rows h
        simp only [List.length_append, List.length_cons, List.length_nil] at this
        simp [hasNetflix, hd]
        omega

/-! ### Claim theorems: histogram bucketizer -/

/-- C1: the claim says that when the maximum `netflix` frequency is below
the bin width of 500 the bucketizer generates zero bins and returns an
empty result without raising, even when some word carries a `netflix`
entry. The code does generate zero bins, but on a word list containing a
word with a `netflix` entry it then evaluates `bins[getbins(...)]` =
`bins[-1]` on the empty bin list and raises `IndexError` (modelled by
`gethistogramRows` returning `none`): the spec is the intent (its §9
flags the original behaviour as a latent bug) and the code is wrong.
This theorem evaluates the code at the failing input. -/
theorem c1_zero_bins_raises :
    getmaximumfreq [catWord 100] = 100 ∧
    generatebins (getmaximumfreq [catWord 100]) = [] ∧
    hasNetflix (catWord 100) = true ∧
    getbins 100 (generatebins (getmaximumfreq [catWord 100])) = -1 ∧
    gethistogramRows [catWord 100] = none := by
  have hm : getmaximumfreq [catWord 100] = 100 := by decide
  have hb : generatebins (getmaximumfreq [catWord 100]) = [] := by
    rw [hm]
    simp [generatebins, generatebinsLoop]
  refine ⟨hm, hb, by decide, by rw [hb]; decide, ?_⟩
  simp only [gethistogramRows, hb]
  decide

/-- C2 as stated is false: the sum of the histogram's bin counts is the
number of dataframe rows, and the dataframe is seeded with a
`("0-500", NaN)` row (plus one zero row per generated bin) before any
word is assigned, so the sum exceeds the number of WordStats carrying
the `netflix` entry. On the empty word list the code produces one row
while zero WordStats carry the entry. -/
theorem c2_counterexample :
    gethistogramRows ([] : List WordStat) = some [("0-500", none)] ∧
    List.countP hasNetflix ([] : List WordStat) = 0 ∧
    ([("0-500", (none : Option Int))]).length ≠ List.countP hasNetflix ([] : List WordStat) := by
  have hb : generatebins (getmaximumfreq ([] : List WordStat)) = [] := by
    rw [show getmaximumfreq ([] : List WordStat) = 0 from rfl]
    simp [generatebins, generatebinsLoop]
  refine ⟨?_, rfl, by decide⟩
  simp [gethistogramRows, hb]

/-- C2 (amended): when the bucketizer completes without raising, each
WordStat carrying a `netflix` entry contributes exactly one dataframe
row, so the total row count — the sum of all bin counts of the rendered
histogram — equals 1 (the seed row) plus the number of generated bins
(their zero-seed rows) plus the number of WordStats carrying the
`netflix` entry; the word-contributed rows alone equal that number. -/
theorem c2_row_count (word_list : List WordStat) (rows : List (String × Option Int))
    (h : gethistogramRows word_list = some rows) :
    rows.length = 1 + (generatebins (getmaximumfreq word_list)).length +
      List.countP hasNetflix word_list := by
  simp only [gethistogramRows] at h
  have hlen := histFoldl_length (generatebins (getmaximumfreq word_list)) word_list _ rows h
  simp only [List.length_cons, List.length_map] at hlen
  omega

/-- Witness for `c2_row_count` at a concrete word list with one
`netflix`-carrying word and two generated bins. -/
theorem c2_row_count_witness :
    gethistogramRows [catWord 1200] =
      some [("0-500", none), ("0-500", some 0), ("500-1000", some 0), ("500-1000", some 4)] ∧
    ([("0-500", (none : Option Int)), ("0-500", some 0), ("500-1000", some 0),
        ("500-1000", some 4)]).length =
      1 + (generatebins (getmaximumfreq [catWord 1200])).length +
        List.countP hasNetflix [catWord 1200] := by
  have hm : getmaximumfreq [catWord 1200] = 1200 := by decide
  have hb : generatebins (getmaximumfreq [catWord 1200]) = ["0-500", "500-1000"] := by
    rw [hm]
    simp [generatebins, generatebinsLoop]
    exact ⟨rfl, rfl⟩
  have h : gethistogramRows [catWord 1200] =
      some [("0-500", none), ("0-500", some 0), ("500-1000", some 0), ("500-1000", some 4)] := by
    simp only [gethistogramRows, hb]
    decide
  exact ⟨h, c2_row_count [catWord 1200] _ h⟩

/-- C3 as stated is false in its coverage part: the generated bins stop
at the largest multiple of 500 not exceeding the maximum observed
`netflix` frequency, so for a maximum of 1200 they extend only to 1000,
not "to at least" 1200. -/
theorem c3_counterexample :
    getmaximumfreq [catWord 1200] = 1200 ∧
    generatebins (getmaximumfreq [catWord 1200]) = ["0-500", "500-1000"] ∧
    pyIntChars ((pySplit '-' ("500-1000".toList)).getD 1 []) = 1000 ∧
    ¬((1200 : Int) ≤ 1000) := by
  refine ⟨by decide, ?_, by decide, by decide⟩
  rw [show getmaximumfreq [catWord 1200] = 1200 from by decide]
  simp [generatebins, generatebinsLoop]
  exact ⟨rfl, rfl⟩

/-- C3 (amended): the generated bins are exactly the contiguous,
non-overlapping width-500 labels `"0-500", "500-1000", ...` starting
from 0, one for every multiple of 500 not exceeding the maximum observed
`netflix` frequency (taken as 0 when no WordStat carries an entry), so
their last upper edge is the largest such multiple — which can fall
short of the maximum itself. -/
theorem c3_bins_structure (word_list : List WordStat) :
    generatebins (getmaximumfreq word_list) =
      (List.range ((getmaximumfreq word_list).toNat / 500)).map binStr ∧
    500 * ((getmaximumfreq word_list).toNat / 500) ≤ (getmaximumfreq word_list).toNat ∧
    (getmaximumfreq word_list).toNat < 500 * ((getmaximumfreq word_list).toNat / 500) + 500 ∧
    ((∀ i ∈ word_list, hasNetflix i = false) → getmaximumfreq word_list = 0) := by
  have h1 := Nat.div_add_mod (getmaximumfreq word_list).toNat 500
  have h2 : (getmaximumfreq word_list).toNat % 500 < 500 :=
    Nat.mod_lt _ (by norm_num)
  exact ⟨generatebins_eq _ (getmaximumfreq_nonneg word_list), by omega, by omega,
    getmaximumfreq_no_entry word_list⟩

/-- Witness for `c3_bins_structure` at a word list with no `netflix`
entries. -/
theorem c3_bins_structure_witness :
    generatebins (getmaximumfreq [dogWord]) =
      (List.range ((getmaximumfreq [dogWord]).toNat / 500)).map binStr ∧
    getmaximumfreq [dogWord] = 0 :=
  ⟨(c3_bins_structure [dogWord]).1, (c3_bins_structure [dogWord]).2.2.2 (by decide)⟩

/-- C8: when the bin list is non-empty and a frequency value is at least
every bin's upper edge (so no bin's half-open range contains it),
`getbins` falls through to `len(bins)-1` and the word is assigned to the
last generated bin rather than failing. -/
theorem c8_last_bin_catchall (freq_num : Int) (bins : List String) (hne : bins ≠ [])
    (hhigh : ∀ bin ∈ bins, pyIntChars ((pySplit '-' bin.toList).getD 1 []) ≤ freq_num) :
    getbins freq_num bins = (bins.length : Int) - 1 ∧
    pyIndex bins (getbins freq_num bins) = some (bins.getLast hne) := by
  have hp : 0 < bins.length := List.length_pos.2 hne
  have hfalse : ∀ bin ∈ bins, binContains freq_num bin = false := by
    intro bin hb
    have hub := hhigh bin hb
    simp only [binContains, Bool.and_eq_false_iff, decide_eq_false_iff_not, not_le, not_lt]
    right
    exact hub
  have hg : getbins freq_num bins = (bins.length : Int) - 1 := by
    unfold getbins
    rw [getbinsAux_none freq_num bins 0 hfalse]
  have h0 : (0 : Int) ≤ (bins.length : Int) - 1 := by omega
  refine ⟨hg, ?_⟩
  rw [hg, pyIndex_of_nonneg _ _ h0,
    show ((bins.length : Int) - 1).toNat = bins.length - 1 by omega,
    List.get?_eq_get (show bins.length - 1 < bins.length by omega), List.getLast_eq_get]

/-- Witness for `c8_last_bin_catchall`: the spec's concrete scenario,
frequency 1200 against bins `["0-500", "500-1000"]`, lands in the last
bin; the full histogram run on that word records one word row in
`"500-1000"`. -/
theorem c8_last_bin_catchall_witness :
    (["0-500", "500-1000"] : List String) ≠ [] ∧
    getbins 1200 ["0-500", "500-1000"] = ((["0-500", "500-1000"] : List String).length : Int) - 1 ∧
    pyIndex ["0-500", "500-1000"] (getbins 1200 ["0-500", "500-1000"]) = some "500-1000" ∧
    gethistogramRows [catWord 1200] =
      some [("0-500", none), ("0-500", some 0), ("500-1000", some 0), ("500-1000", some 4)] := by
  have h := c8_last_bin_catchall 1200 ["0-500", "500-1000"] (by decide) (by decide)
  have hm : getmaximumfreq [catWord 1200] = 1200 := by decide
  have hb : generatebins (getmaximumfreq [catWord 1200]) = ["0-500", "500-1000"] := by
    rw [hm]
    simp [generatebins, generatebinsLoop]
    exact ⟨rfl, rfl⟩
  refine ⟨by decide, h.1, ?_, ?_⟩
  · rw [h.2]
    rfl
  · simp only [gethistogramRows, hb]
    decide

/-- C10: on a non-empty bin list, `getbins` returns the index of the
first bin whose parsed half-open range contains the value, or
`len(bins)-1` when no bin contains it; either way the result lies in
`[0, len(bins)-1]` and indexing the bin list with it cannot fail. -/
theorem c10_getbins_in_range (freq_num : Int) (bins : List String) (hne : bins ≠ []) :
    getbins freq_num bins =
      (((bins.findIdx? (binContains freq_num)).getD (bins.length - 1) : Nat) : Int) ∧
    0 ≤ getbins freq_num bins ∧
    getbins freq_num bins < (bins.length : Int) ∧
    (pyIndex bins (getbins freq_num bins)).isSome = true := by
  have hp : 0 < bins.length := List.length_pos.2 hne
  unfold getbins
  rw [getbinsAux_eq_findIdx?]
  cases hf : List.findIdx? (binContains freq_num) bins 0 with
  | none =>
    simp only [Option.getD_none]
    have h0 : (0 : Int) ≤ (bins.length : Int) - 1 := by omega
    refine ⟨by omega, h0, by omega, ?_⟩
    rw [pyIndex_of_nonneg _ _ h0,
      show ((bins.length : Int) - 1).toNat = bins.length - 1 by omega,
      List.get?_eq_get (show bins.length - 1 < bins.length by omega)]
    rfl
  | some i =>
    have hb := getbinsAux_bounds freq_num bins 0 i
      (by rw [getbinsAux_eq_findIdx?]; exact hf)
    have hi : i < bins.length := by omega
    simp only [Option.getD_some]
    refine ⟨trivial, by omega, by omega, ?_⟩
    rw [pyIndex_of_nonneg _ _ (by omega), show ((i : Int)).toNat = i by omega,
      List.get?_eq_get hi]
    rfl

/-- Witness for `c10_getbins_in_range` at frequency 700 against the bins
`["0-500", "500-1000"]` (the value falls inside the second bin). -/
theorem c10_getbins_in_range_witness :
    (["0-500", "500-1000"] : List String) ≠ [] ∧
    getbins 700 ["0-500", "500-1000"] =
      ((((["0-500", "500-1000"] : List String).findIdx? (binContains 700)).getD
          ((["0-500", "500-1000"] : List String).length - 1) : Nat) : Int) ∧
    0 ≤ getbins 700 ["0-500", "500-1000"] ∧
    getbins 700 ["0-500", "500-1000"] < ((["0-500", "500-1000"] : List String).length : Int) ∧
    (pyIndex ["0-500", "500-1000"] (getbins 700 ["0-500", "500-1000"])).isSome = true :=
  ⟨by decide, c10_getbins_in_range 700 ["0-500", "500-1000"] (by decide)⟩

/-- C9: `process_file` dispatches on the final `'.'`-separated extension:
any extension other than `epub` and `txt` raises a `ValueError` naming
the allowed extensions (so no Book is produced), while `epub` and `txt`
never raise that error. -/
theorem c9_extension_dispatch (filename : String) :
    (lastExtension filename ≠ "epub" → lastExtension filename ≠ "txt" →
      process_file filename =
        ProcessOutcome.value_error "Filename extension must be one of epub,txt") ∧
    (lastExtension filename = "epub" ∨ lastExtension filename = "txt" →
      ∀ msg, process_file filename ≠ ProcessOutcome.value_error msg) := by
  constructor
  · intro h1 h2
    simp only [process_file]
    rw [if_neg h1, if_neg h2]
    rfl
  · rintro (h | h) msg
    · simp only [process_file]
      rw [if_pos h]
      intro hc
      cases hc
    · simp only [process_file]
      rw [if_neg (fun hc => absurd hc (by rw [h]; decide)), if_pos h]
      intro hc
      cases hc

/-- Witness for `c9_extension_dispatch`: a `.pdf` file raises the
`ValueError`, a `.txt` file does not. -/
theorem c9_extension_dispatch_witness :
    lastExtension "book.pdf" = "pdf" ∧
    process_file "book.pdf" =
      ProcessOutcome.value_error "Filename extension must be one of epub,txt" ∧
    lastExtension "novel.txt" = "txt" ∧
    process_file "novel.txt" ≠
      ProcessOutcome.value_error "Filename extension must be one of epub,txt" :=
  ⟨by decide, (c9_extension_dispatch "book.pdf").1 (by decide) (by decide), by decide,
    (c9_extension_dispatch "novel.txt").2 (Or.inr (by decide)) _⟩

/-! ### Lemmas about the frequency analyzer -/

theorem pyCount_eq_count {α : Type} [DecidableEq α] (xs : List α) (x : α) :
    pyCount xs x = List.count x xs := rfl

theorem isEnumOf_perm_dedup {α : Type} [DecidableEq α] {u l : List α} (h : isEnumOf u l) :
    u.Perm l.dedup :=
  (List.perm_ext_iff_of_nodup h.1 (List.nodup_dedup l)).2
    (fun a =>
      ⟨fun ha => (List.mem_dedup).2 (h.2.1 a ha), fun ha => h.2.2 a ((List.mem_dedup).1 ha)⟩)

theorem usedOnce_length {α : Type} [DecidableEq α] (xs u : List α) :
    (((withUses xs u).filter (fun p => p.2 == 1)).map (fun p => p.1)).length =
      List.countP (fun x => pyCount xs x == 1) u := by
  unfold withUses countPairs
  rw [List.length_map, ← List.countP_eq_length_filter,
    (List.perm_insertionSort byUses _).countP_eq, List.countP_map]
  rfl

theorem sum_withUses {α : Type} [DecidableEq α] (xs u : List α) (h : isEnumOf u xs) :
    ((withUses xs u).map (fun p => p.2)).sum = xs.length := by
  unfold withUses countPairs
  rw [((List.perm_insertionSort byUses _).map (fun p => p.2)).sum_eq, List.map_map]
  show (u.map (fun x => pyCount xs x)).sum = xs.length
  rw [((isEnumOf_perm_dedup h).map (fun x => pyCount xs x)).sum_eq,
    List.map_congr_left (fun a _ => pyCount_eq_count xs a),
    List.sum_map_count_dedup_eq_length]

theorem counts_side {α : Type} [DecidableEq α] (xs u : List α) (h : isEnumOf u xs) :
    u.length = xs.dedup.length ∧
    (((withUses xs u).filter (fun p => p.2 == 1)).map (fun p => p.1)).length =
      (xs.dedup.filter (fun x => pyCount xs x == 1)).length ∧
    (((withUses xs u).filter (fun p => p.2 == 1)).map (fun p => p.1)).length ≤ u.length ∧
    u.length ≤ xs.length := by
  have hlen : u.length = xs.dedup.length := (isEnumOf_perm_dedup h).length_eq
  refine ⟨hlen, ?_, ?_, ?_⟩
  · rw [usedOnce_length xs u, (isEnumOf_perm_dedup h).countP_eq,
      List.countP_eq_length_filter]
  · rw [usedOnce_length xs u]
    exact List.countP_le_length _
  · rw [hlen]
    exact (List.dedup_sublist xs).length_le

theorem withUses_perm_of_perm {α : Type} [DecidableEq α] (xs : List α) {u1 u2 : List α}
    (h : u1.Perm u2) : (withUses xs u1).Perm (withUses xs u2) :=
  (List.perm_insertionSort _ _).trans
    ((h.map _).trans (List.perm_insertionSort _ _).symm)

theorem sorted_withUses_snd {α : Type} [DecidableEq α] (xs u : List α) :
    List.Sorted (fun a b : Nat => b ≤ a) ((withUses xs u).map (fun p => p.2)) :=
  List.Pairwise.map _ (fun _ _ hab => hab) (List.sorted_insertionSort byUses (countPairs xs u))

theorem withUses_map_snd_eq {α : Type} [DecidableEq α] (xs : List α) {u1 u2 : List α}
    (h : u1.Perm u2) :
    (withUses xs u1).map (fun p => p.2) = (withUses xs u2).map (fun p => p.2) := by
  haveI : IsAntisymm Nat (fun a b => b ≤ a) := ⟨fun a b h1 h2 => Nat.le_antisymm h2 h1⟩
  exact List.eq_of_perm_of_sorted ((withUses_perm_of_perm xs h).map _)
    (sorted_withUses_snd xs u1) (sorted_withUses_snd xs u2)

/-! ### Claim theorems: frequency analyzer -/

/-- C4: `n_words` is the total token count, `n_words_unique` the number
of distinct words, `n_words_used_once` the number of distinct words
occurring exactly once, the chain
`n_words_used_once ≤ n_words_unique ≤ n_words` holds, and the analogous
equalities and chain hold for characters. -/
theorem c4_counts (text : List Char) (tokens : List String) (uc : List Char) (uw : List String)
    (fr : String → List (String × FrequencyEntry))
    (hc : isEnumOf uc text) (hw : isEnumOf uw tokens) :
    (analyse text tokens uc uw fr).n_words = tokens.length ∧
    (analyse text tokens uc uw fr).n_words_unique = tokens.dedup.length ∧
    (analyse text tokens uc uw fr).n_words_used_once =
      (tokens.dedup.filter (fun w => pyCount tokens w == 1)).length ∧
    (analyse text tokens uc uw fr).n_words_used_once ≤
      (analyse text tokens uc uw fr).n_words_unique ∧
    (analyse text tokens uc uw fr).n_words_unique ≤ (analyse text tokens uc uw fr).n_words ∧
    (analyse text tokens uc uw fr).n_chars = text.length ∧
    (analyse text tokens uc uw fr).n_chars_unique = text.dedup.length ∧
    (analyse text tokens uc uw fr).n_chars_used_once =
      (text.dedup.filter (fun c => pyCount text c == 1)).length ∧
    (analyse text tokens uc uw fr).n_chars_used_once ≤
      (analyse text tokens uc uw fr).n_chars_unique ∧
    (analyse text tokens uc uw fr).n_chars_unique ≤ (analyse text tokens uc uw fr).n_chars := by
  obtain ⟨hwl, hwo, hwle1, hwle2⟩ := counts_side tokens uw hw
  obtain ⟨hcl, hco, hcle1, hcle2⟩ := counts_side text uc hc
  exact ⟨rfl, hwl, hwo, hwle1, hwle2, rfl, hcl, hco, hcle1, hcle2⟩

/-- Witness for `c4_counts`: the spec's concrete scenario
`text = "猫が猫を見た。猫。"`,
`tokens = ["猫","が","猫","を","見た","。","猫","。"]` gives
`n_words = 8`, `n_words_unique = 5`, `n_words_used_once = 3`. -/
theorem c4_counts_witness :
    isEnumOf scenarioUniqueChars scenarioText ∧
    isEnumOf scenarioUniqueWords scenarioTokens ∧
    (analyse scenarioText scenarioTokens scenarioUniqueChars scenarioUniqueWords
      noFreq).n_words = 8 ∧
    (analyse scenarioText scenarioTokens scenarioUniqueChars scenarioUniqueWords
      noFreq).n_words_unique = 5 ∧
    (analyse scenarioText scenarioTokens scenarioUniqueChars scenarioUniqueWords
      noFreq).n_words_used_once = 3 := by
  have h := c4_counts scenarioText scenarioTokens scenarioUniqueChars scenarioUniqueWords
    noFreq (by decide) (by decide)
  refine ⟨by decide, by decide, ?_, ?_, ?_⟩
  · rw [h.1]
    decide
  · rw [h.2.1]
    decide
  · rw [h.2.2.1]
    decide

/-- C5: the per-character occurrence counts sum to the codepoint length
of the text, and the per-word occurrence counts sum to the token
count. -/
theorem c5_occurrence_sums (text : List Char) (tokens : List String) (uc : List Char)
    (uw : List String) (fr : String → List (String × FrequencyEntry))
    (hc : isEnumOf uc text) (hw : isEnumOf uw tokens) :
    (((analyse text tokens uc uw fr).chars).map (fun c => c.occurences)).sum = text.length ∧
    (((analyse text tokens uc uw fr).words).map (fun w => w.ocurrences)).sum = tokens.length := by
  constructor
  · have h1 : ((analyse text tokens uc uw fr).chars).map (fun c => c.occurences) =
        (withUses text uc).map (fun p => p.2) := by
      show ((withUses text uc).map
          (fun p => ({ character := p.1, occurences := p.2 } : CharStat))).map
          (fun c => c.occurences) = (withUses text uc).map (fun p => p.2)
      rw [List.map_map]
      rfl
    rw [h1]
    exact sum_withUses text uc hc
  · have h1 : ((analyse text tokens uc uw fr).words).map (fun w => w.ocurrences) =
        (withUses tokens uw).map (fun p => p.2) := by
      show ((withUses tokens uw).map
          (fun p => ({ word := p.1, ocurrences := p.2, frequency := fr p.1 } : WordStat))).map
          (fun w => w.ocurrences) = (withUses tokens uw).map (fun p => p.2)
      rw [List.map_map]
      rfl
    rw [h1]
    exact sum_withUses tokens uw hw

/-- Witness for `c5_occurrence_sums` at the concrete scenario: character
counts sum to 9 codepoints, word counts sum to 8 tokens. -/
theorem c5_occurrence_sums_witness :
    isEnumOf scenarioUniqueChars scenarioText ∧
    isEnumOf scenarioUniqueWords scenarioTokens ∧
    (((analyse scenarioText scenarioTokens scenarioUniqueChars scenarioUniqueWords
        noFreq).chars).map (fun c => c.occurences)).sum = 9 ∧
    (((analyse scenarioText scenarioTokens scenarioUniqueChars scenarioUniqueWords
        noFreq).words).map (fun w => w.ocurrences)).sum = 8 := by
  have h := c5_occurrence_sums scenarioText scenarioTokens scenarioUniqueChars
    scenarioUniqueWords noFreq (by decide) (by decide)
  refine ⟨by decide, by decide, ?_, ?_⟩
  · rw [h.1]
    decide
  · rw [h.2]
    decide

/-- C6: the `words` and `chars` sequences of the analysis result are
sorted in monotonically non-increasing occurrence order across the whole
sequence (this holds for every enumeration order of the two sets, so no
enumeration hypothesis is needed). -/
theorem c6_sorted_descending (text : List Char) (tokens : List String) (uc : List Char)
    (uw : List String) (fr : String → List (String × FrequencyEntry)) :
    List.Sorted (fun a b : WordStat => b.ocurrences ≤ a.ocurrences)
      ((analyse text tokens uc uw fr).words) ∧
    List.Sorted (fun a b : CharStat => b.occurences ≤ a.occurences)
      ((analyse text tokens uc uw fr).chars) :=
  ⟨List.Pairwise.map _ (fun _ _ hab => hab)
      (List.sorted_insertionSort byUses (countPairs tokens uw)),
    List.Pairwise.map _ (fun _ _ hab => hab)
      (List.sorted_insertionSort byUses (countPairs text uc))⟩

/-- C7 as stated is false: the analyzer's output ordering among equal
occurrence counts follows the iteration order of Python's `set`, which
CPython derives from per-process randomized string hashes, so it is not
a function of the input `(text, tokens, corpora)` alone. Two legitimate
enumeration orders of the same distinct-character set yield results that
differ in the ordering of their tied `chars` entries. -/
theorem c7_counterexample :
    isEnumOf ['a', 'b'] ['a', 'b'] ∧
    isEnumOf ['b', 'a'] ['a', 'b'] ∧
    analyse ['a', 'b'] [] ['a', 'b'] [] noFreq ≠ analyse ['a', 'b'] [] ['b', 'a'] [] noFreq :=
  ⟨by decide, by decide, by decide⟩

/-- C7 (amended): the analyzer is deterministic up to the set-iteration
oracle: for a fixed enumeration order it is a pure function, and for any
two enumeration orders of the same sets all six counts agree, the `words`
and `chars` sequences are permutations of each other, and the
occurrence-count sequences coincide — only the ordering among
equal-count entries can differ. -/
theorem c7_deterministic_up_to_ties (text : List Char) (tokens : List String)
    (uc1 uc2 : List Char) (uw1 uw2 : List String)
    (fr : String → List (String × FrequencyEntry))
    (hc : uc1.Perm uc2) (hw : uw1.Perm uw2) :
    (analyse text tokens uc1 uw1 fr).n_words = (analyse text tokens uc2 uw2 fr).n_words ∧
    (analyse text tokens uc1 uw1 fr).n_words_unique =
      (analyse text tokens uc2 uw2 fr).n_words_unique ∧
    (analyse text tokens uc1 uw1 fr).n_words_used_once =
      (analyse text tokens uc2 uw2 fr).n_words_used_once ∧
    (analyse text tokens uc1 uw1 fr).n_chars = (analyse text tokens uc2 uw2 fr).n_chars ∧
    (analyse text tokens uc1 uw1 fr).n_chars_unique =
      (analyse text tokens uc2 uw2 fr).n_chars_unique ∧
    (analyse text tokens uc1 uw1 fr).n_chars_used_once =
      (analyse text tokens uc2 uw2 fr).n_chars_used_once ∧
    ((analyse text tokens uc1 uw1 fr).words).Perm ((analyse text tokens uc2 uw2 fr).words) ∧
    ((analyse text tokens uc1 uw1 fr).chars).Perm ((analyse text tokens uc2 uw2 fr).chars) ∧
    ((analyse text tokens uc1 uw1 fr).words).map (fun w => w.ocurrences) =
      ((analyse text tokens uc2 uw2 fr).words).map (fun w => w.ocurrences) ∧
    ((analyse text tokens uc1 uw1 fr).chars).map (fun c => c.occurences) =
      ((analyse text tokens uc2 uw2 fr).chars).map (fun c => c.occurences) := by
  refine ⟨rfl, hw.length_eq, ?_, rfl, hc.length_eq, ?_, ?_, ?_, ?_, ?_⟩
  · show (((withUses tokens uw1).filter (fun p => p.2 == 1)).map (fun p => p.1)).length =
      (((withUses tokens uw2).filter (fun p => p.2 == 1)).map (fun p => p.1)).length
    rw [usedOnce_length, usedOnce_length, hw.countP_eq]
  · show (((withUses text uc1).filter (fun p => p.2 == 1)).map (fun p => p.1)).length =
      (((withUses text uc2).filter (fun p => p.2 == 1)).map (fun p => p.1)).length
    rw [usedOnce_length, usedOnce_length, hc.countP_eq]
  · exact (withUses_perm_of_perm tokens hw).map _
  · exact (withUses_perm_of_perm text hc).map _
  · show ((withUses tokens uw1).map
        (fun p => ({ word := p.1, ocurrences := p.2, frequency := fr p.1 } : WordStat))).map
        (fun w => w.ocurrences) = ((withUses tokens uw2).map
        (fun p => ({ word := p.1, ocurrences := p.2, frequency := fr p.1 } : WordStat))).map
        (fun w => w.ocurrences)
    rw [List.map_map, List.map_map]
    exact withUses_map_snd_eq tokens hw
  · show ((withUses text uc1).map
        (fun p => ({ character := p.1, occurences := p.2 } : CharStat))).map
        (fun c => c.occurences) = ((withUses text uc2).map
        (fun p => ({ character := p.1, occurences := p.2 } : CharStat))).map
        (fun c => c.occurences)
    rw [List.map_map, List.map_map]
    exact withUses_map_snd_eq text hc

/-- Witness for `c7_deterministic_up_to_ties`: the two enumeration orders
of the counterexample's character set produce equal counts and equal
occurrence-count sequences. -/
theorem c7_deterministic_up_to_ties_witness :
    (['a', 'b'] : List Char).Perm ['b', 'a'] ∧
    ((analyse ['a', 'b'] [] ['a', 'b'] [] noFreq).chars).Perm
      ((analyse ['a', 'b'] [] ['b', 'a'] [] noFreq).chars) ∧
    ((analyse ['a', 'b'] [] ['a', 'b'] [] noFreq).chars).map (fun c => c.occurences) =
      ((analyse ['a', 'b'] [] ['b', 'a'] [] noFreq).chars).map (fun c => c.occurences) := by
  have h := c7_deterministic_up_to_ties ['a', 'b'] [] ['a', 'b'] ['b', 'a'] [] []
    noFreq (by decide) (by decide)
  exact ⟨by decide, h.2.2.2.2.2.2.2.1, h.2.2.2.2.2.2.2.2.2⟩

end BookUtils
